import Mathlib

/-!
Verification of the gpu-finder availability prober (src/gpu-finder.py).

The Python program is embedded shallowly: every provider interaction is
abstracted into explicit inputs (paginated listings as lists of pages,
long-running-operation polls as the list of successive status responses),
Python exceptions become an explicit error type, and the unbounded poll
loops are run against the finite list of responses the provider would give,
with `none` standing for a loop that has not yet returned.
-/

/-- Result of a zoneOperations().get() poll: the operation status string and,
when present, the operation's error object (gpu-finder.py lines 239-252). -/
structure OpError where
  errors : List String
deriving DecidableEq, Repr

/-- One polled operation status response; `error = none` models a response
without an error key. -/
structure OpResult where
  status : String
  error : Option OpError
deriving DecidableEq, Repr

/-- The Python exceptions the script can raise: the config-mismatch Exception
of check_gpu_config (line 35), the ValueError int() can raise (line 34), the
two empty-result Exceptions (lines 81, 111), the IndexError from indexing an
empty list, and Exception(result.error) from the operation polls. -/
inductive PyExc where
  | configMismatch
  | valueError
  | noMachineTypes
  | noAcceleratorTypes
  | indexError
  | opError (e : OpError)
deriving DecidableEq, Repr

/-- Outcome of running a piece of the pipeline: a normal return, a raised
exception propagating to the top, or a poll loop that never saw completion
and hence never returned. -/
inductive StepResult (α : Type) where
  | ok (a : α)
  | raised (e : PyExc)
  | hung
deriving DecidableEq, Repr

/-- One entry of the provider's zone listing (name and status). -/
structure ZoneItem where
  name : String
  status : String
deriving DecidableEq, Repr

/-- A zone record as built by get_zone_info (lines 44-47). -/
structure ZoneInfo where
  region : String
  zone : String
deriving DecidableEq, Repr

/-- One accelerator descriptor of a machine-type catalog entry. -/
structure Accelerator where
  guestAcceleratorType : String
  guestAcceleratorCount : Nat
deriving DecidableEq, Repr

/-- One entry of a zone's machine-type catalog; `accelerators = none` models
an entry without an accelerators key (line 60 tests key presence). -/
structure MachineEntry where
  name : String
  guestCpus : Nat
  description : String
  accelerators : Option (List Accelerator)
deriving DecidableEq, Repr

/-- A record produced by check_machine_type_and_accelerator (lines 61-78);
`accelerators = none` is the plain record of the elif branch. -/
structure CapableZone where
  machine_type : String
  region : String
  zone : String
  guest_cpus : Nat
  description : String
  accelerators : Option (List Accelerator)
deriving DecidableEq, Repr

/-- One entry of a zone's accelerator-type catalog. -/
structure AcceleratorType where
  name : String
  description : String
  maximumCardsPerInstance : Nat
deriving DecidableEq, Repr

/-- A record produced by get_accelerator_quota (lines 95-103); max_gpus is
the catalog's maximumCardsPerInstance copied into the record. -/
structure QuotaZone where
  region : String
  zone : String
  machine_type : String
  guest_cpus : Nat
  name : String
  description : String
  max_gpus : Nat
deriving DecidableEq, Repr

/-- The instance_details dict returned on a successful creation
(lines 255-258). -/
structure InstanceRecord where
  name : String
  zone : String
deriving DecidableEq, Repr

/-- Observable provider interactions of a run, in order: the zone listing,
each per-zone machine-type listing, each per-zone accelerator-type listing,
each instances().insert submission, each confirmed creation, each
instances().delete submission, and each delete confirmed complete. -/
inductive Event where
  | zoneList
  | machineTypeList (zone : String)
  | acceleratorList (zone : String)
  | insert (region zone name : String)
  | created (region zone name : String)
  | deleteReq (zone name : String)
  | deleteDone (zone name : String)
deriving DecidableEq, Repr

/-- The configuration fields the script reads from gpu-config.json. -/
structure Config where
  name : String
  machine_type : String
  gpu_type : String
  number_of_gpus : Nat
  number_of_instances : Nat
  zone_allowlist : List String
deriving DecidableEq, Repr

/-- Python str.startswith. -/
def py_startswith (s pat : String) : Bool :=
  pat.data.isPrefixOf s.data

/-- Helper for py_find: first index at or after i where pat occurs. -/
def py_find_aux (pat : List Char) : List Char → Nat → Option Nat
  | [], i => if pat.isPrefixOf ([] : List Char) then some i else none
  | c :: t, i => if pat.isPrefixOf (c :: t) then some i else py_find_aux pat t (i + 1)

/-- Python str.find: index of the first occurrence, none standing for -1. -/
def py_find (s pat : String) : Option Nat :=
  py_find_aux pat.data s.data 0

/-- Python nonnegative slice s[a:b]: characters a up to b, clamped. -/
def py_slice (s : String) (a b : Nat) : String :=
  ((s.data.drop a).take (b - a)).asString

/-- Decimal value of a digit list. -/
def py_digits_val (l : List Char) : Nat :=
  l.foldl (fun acc c => acc * 10 + (c.toNat - 48)) 0

/-- Python int() as applied by the script to substrings of machine-type
names: parses a nonempty all-digit string, none standing for ValueError. -/
def py_int (s : String) : Option Nat :=
  if s.data.isEmpty then none
  else if s.data.all Char.isDigit then some (py_digits_val s.data)
  else none

/-- The substring machine_type[find(machine_type, highgpu)+8 : len-1] that
check_gpu_config feeds to int() (line 33); Python's find returns -1 when the
pattern is absent, making the start index 7. -/
def gpu_count_slice (machine_type : String) : String :=
  let start := match py_find machine_type "highgpu" with
    | some i => i + 8
    | none => 7
  py_slice machine_type start (machine_type.length - 1)

/-- check_gpu_config (lines 29-35): for machine types starting with a2,
extract the GPU count encoded in the name and compare it with the requested
number_of_gpus; int() failing is a ValueError, a differing count the
config-mismatch Exception. -/
def check_gpu_config (machine_type : String) (number_of_gpus : Nat) : Except PyExc Unit :=
  if py_startswith machine_type "a2" then
    match py_int (gpu_count_slice machine_type) with
    | none => Except.error PyExc.valueError
    | some g =>
      if number_of_gpus ≠ g then Except.error PyExc.configMismatch
      else Except.ok ()
  else Except.ok ()

/-- The zone record get_zone_info appends (lines 44-47): the region is the
zone name sliced from 0 to its length minus 2. -/
def zone_region_record (z : ZoneItem) : ZoneInfo :=
  { region := py_slice z.name 0 (z.name.length - 2), zone := z.name }

/-- One page of get_zone_info's while loop (lines 42-48): append a record
for every item whose status is UP. -/
def zone_page_step (acc : List ZoneInfo) (items : List ZoneItem) : List ZoneInfo :=
  items.foldl (fun acc z => if z.status = "UP" then acc ++ [zone_region_record z] else acc) acc

/-- get_zone_info (lines 37-50) over the paginated listing, one inner list
per page. -/
def get_zone_info (pages : List (List ZoneItem)) : List ZoneInfo :=
  pages.foldl zone_page_step []

/-- Classification of one machine-type catalog entry by
check_machine_type_and_accelerator's if/elif (lines 60-78): a rich record
when the entry has accelerators, the name matches and the first
accelerator's type matches; indexing accelerators[0] of an empty list is an
IndexError; a plain record when only the name matches. -/
def machine_entry_scan (machine_type gpu_type : String) (z : ZoneInfo) (m : MachineEntry) :
    Except PyExc (Option CapableZone) :=
  match m.accelerators with
  | some accs =>
    if m.name = machine_type then
      match accs with
      | [] => Except.error PyExc.indexError
      | a :: t =>
        if a.guestAcceleratorType = gpu_type then
          Except.ok (some { machine_type := m.name, region := z.region, zone := z.zone,
                            guest_cpus := m.guestCpus, description := m.description,
                            accelerators := some (a :: t) })
        else
          Except.ok (some { machine_type := m.name, region := z.region, zone := z.zone,
                            guest_cpus := m.guestCpus, description := m.description,
                            accelerators := none })
    else Except.ok none
  | none =>
    if m.name = machine_type then
      Except.ok (some { machine_type := m.name, region := z.region, zone := z.zone,
                        guest_cpus := m.guestCpus, description := m.description,
                        accelerators := none })
    else Except.ok none

/-- The inner for loop of lines 59-78 over one page of machine entries. -/
def machine_list_scan (machine_type gpu_type : String) (z : ZoneInfo) :
    List MachineEntry → Except PyExc (List CapableZone)
  | [] => Except.ok []
  | m :: rest =>
    match machine_entry_scan machine_type gpu_type z m with
    | Except.error e => Except.error e
    | Except.ok found =>
      match machine_list_scan machine_type gpu_type z rest with
      | Except.error e => Except.error e
      | Except.ok l => Except.ok (found.toList ++ l)

/-- The pagination while loop of lines 57-79 for one zone. -/
def machine_pages_scan (machine_type gpu_type : String) (z : ZoneInfo) :
    List (List MachineEntry) → Except PyExc (List CapableZone)
  | [] => Except.ok []
  | p :: rest =>
    match machine_list_scan machine_type gpu_type z p with
    | Except.error e => Except.error e
    | Except.ok l1 =>
      match machine_pages_scan machine_type gpu_type z rest with
      | Except.error e => Except.error e
      | Except.ok l2 => Except.ok (l1 ++ l2)

/-- The outer zone loop of lines 55-79, recording one machineTypeList event
per zone whose catalog is fetched. -/
def machine_zones_scan (machine_type gpu_type : String)
    (pages : String → List (List MachineEntry)) :
    List ZoneInfo → List Event × Except PyExc (List CapableZone)
  | [] => ([], Except.ok [])
  | z :: rest =>
    match machine_pages_scan machine_type gpu_type z (pages z.zone) with
    | Except.error e => ([Event.machineTypeList z.zone], Except.error e)
    | Except.ok found =>
      let r := machine_zones_scan machine_type gpu_type pages rest
      (Event.machineTypeList z.zone :: r.1,
        match r.2 with
        | Except.error e => Except.error e
        | Except.ok l => Except.ok (found ++ l))

/-- check_machine_type_and_accelerator (lines 52-82): scan every zone's
machine-type catalog and raise when no zone qualified. -/
def check_machine_type_and_accelerator (machine_type gpu_type : String)
    (pages : String → List (List MachineEntry)) (zones : List ZoneInfo) :
    List Event × Except PyExc (List CapableZone) :=
  let r := machine_zones_scan machine_type gpu_type pages zones
  (r.1,
    match r.2 with
    | Except.error e => Except.error e
    | Except.ok l => if l.isEmpty then Except.error PyExc.noMachineTypes else Except.ok l)

/-- One accelerator-type catalog entry of get_accelerator_quota's inner loop
(lines 92-108): kept when the name matches the configured gpu_type and the
requested count fits within maximumCardsPerInstance. -/
def accel_entry_keep (gpu_type : String) (requested : Nat) (i : CapableZone)
    (a : AcceleratorType) : Option QuotaZone :=
  if a.name = gpu_type then
    if requested ≤ a.maximumCardsPerInstance then
      some { region := i.region, zone := i.zone, machine_type := i.machine_type,
             guest_cpus := i.guest_cpus, name := a.name, description := a.description,
             max_gpus := a.maximumCardsPerInstance }
    else none
  else none

/-- One page of lines 90-108; a page without an items key (line 91) is
modelled as none and contributes nothing. -/
def accel_page_scan (gpu_type : String) (requested : Nat) (i : CapableZone) :
    Option (List AcceleratorType) → List QuotaZone
  | none => []
  | some items => items.filterMap (accel_entry_keep gpu_type requested i)

/-- The pagination while loop of lines 89-109 for one capable zone. -/
def accel_pages_scan (gpu_type : String) (requested : Nat) (i : CapableZone) :
    List (Option (List AcceleratorType)) → List QuotaZone
  | [] => []
  | p :: rest =>
    accel_page_scan gpu_type requested i p ++ accel_pages_scan gpu_type requested i rest

/-- The outer zone loop of lines 87-109, one acceleratorList event per zone. -/
def accel_zones_scan (gpu_type : String) (requested : Nat)
    (pages : String → List (Option (List AcceleratorType))) :
    List CapableZone → List Event × List QuotaZone
  | [] => ([], [])
  | i :: rest =>
    let r := accel_zones_scan gpu_type requested pages rest
    (Event.acceleratorList i.zone :: r.1,
      accel_pages_scan gpu_type requested i (pages i.zone) ++ r.2)

/-- get_accelerator_quota (lines 84-112): scan every capable zone's
accelerator-type catalog and raise when no zone qualified. -/
def get_accelerator_quota (gpu_type : String) (requested : Nat)
    (pages : String → List (Option (List AcceleratorType))) (zones : List CapableZone) :
    List Event × Except PyExc (List QuotaZone) :=
  let r := accel_zones_scan gpu_type requested pages zones
  (r.1, if r.2.isEmpty then Except.error PyExc.noAcceleratorTypes else Except.ok r.2)

/-- The three capacity-class error codes of line 248. -/
def capacity_codes : List String :=
  ["QUOTA_EXCEEDED", "ZONE_RESOURCE_POOL_EXHAUSTED_WITH_DETAILS", "ZONE_RESOURCE_POOL_EXHAUSTED"]

/-- Outcome of one create_single_instance call once its poll loop returned:
the instance record on success, skipped (Python None) for a capacity-class
first error code, a raised Exception for any other code, and the IndexError
of errors[0] on an empty error list. -/
inductive CreateResult where
  | created (rec : InstanceRecord)
  | skipped
  | exn (e : OpError)
  | crash
deriving DecidableEq, Repr

/-- The poll-and-classify loop of create_single_instance (lines 237-259),
run against the successive zoneOperations().get() responses: loop until a
response says DONE, then classify by the presence of an error and its first
error code; an exhausted response list means the while True loop is still
running, modelled as none. The instance specification assembly and insert
submission of lines 128-235 only determine which responses arrive and are
abstracted into the response list. -/
def create_single_instance (instance_name zone : String) : List OpResult → Option CreateResult
  | [] => none
  | r :: rest =>
    if r.status = "DONE" then
      match r.error with
      | some err =>
        match err.errors with
        | [] => some CreateResult.crash
        | c :: _ =>
          if c ∈ capacity_codes then some CreateResult.skipped
          else some (CreateResult.exn err)
      | none => some (CreateResult.created { name := instance_name, zone := zone })
    else create_single_instance instance_name zone rest

/-- The instance name of line 117: name-(created so far + 1)-zone. -/
def mk_instance_name (base : String) (ordinal : Nat) (zone : String) : String :=
  base ++ "-" ++ Nat.repr ordinal ++ "-" ++ zone

/-- create_instances (lines 114-126): walk the zone list, synthesize each
name from the running created count, attempt creation, append on success,
and return as soon as the created count reaches number_of_instances
(that check runs after each attempt, line 122). The responses the provider
gives to the poll of a zone's insert operation are resp applied to the zone
name. -/
def create_instances (base : String) (target : Nat) (resp : String → List OpResult)
    (created : List InstanceRecord) : List QuotaZone → List Event × StepResult (List InstanceRecord)
  | [] => ([], StepResult.ok created)
  | z :: rest =>
    let nm := mk_instance_name base (created.length + 1) z.zone
    match create_single_instance nm z.zone (resp z.zone) with
    | none => ([Event.insert z.region z.zone nm], StepResult.hung)
    | some CreateResult.crash =>
      ([Event.insert z.region z.zone nm], StepResult.raised PyExc.indexError)
    | some (CreateResult.exn e) =>
      ([Event.insert z.region z.zone nm], StepResult.raised (PyExc.opError e))
    | some CreateResult.skipped =>
      if target ≤ created.length then
        ([Event.insert z.region z.zone nm], StepResult.ok created)
      else
        let r := create_instances base target resp created rest
        (Event.insert z.region z.zone nm :: r.1, r.2)
    | some (CreateResult.created rec) =>
      if target ≤ created.length + 1 then
        ([Event.insert z.region z.zone nm, Event.created z.region rec.zone rec.name],
          StepResult.ok (created ++ [rec]))
      else
        let r := create_instances base target resp (created ++ [rec]) rest
        (Event.insert z.region z.zone nm :: Event.created z.region rec.zone rec.name :: r.1, r.2)

/-- Outcome of one delete poll loop (lines 276-286): completion breaks out,
an error on the completed operation raises. -/
inductive DeleteStep where
  | finished
  | exn (e : OpError)
deriving DecidableEq, Repr

/-- The delete poll loop of lines 276-286 against the successive responses;
none models the while True loop still running. -/
def delete_poll : List OpResult → Option DeleteStep
  | [] => none
  | r :: rest =>
    if r.status = "DONE" then
      match r.error with
      | some e => some (DeleteStep.exn e)
      | none => some DeleteStep.finished
    else delete_poll rest

/-- delete_instances (lines 262-286): delete each record in order, polling
each operation to completion; any reported error raises. -/
def delete_instances (dresp : String → List OpResult) :
    List InstanceRecord → List Event × StepResult Unit
  | [] => ([], StepResult.ok ())
  | rec :: rest =>
    match delete_poll (dresp rec.name) with
    | none => ([Event.deleteReq rec.zone rec.name], StepResult.hung)
    | some (DeleteStep.exn e) =>
      ([Event.deleteReq rec.zone rec.name], StepResult.raised (PyExc.opError e))
    | some DeleteStep.finished =>
      let r := delete_instances dresp rest
      (Event.deleteReq rec.zone rec.name :: Event.deleteDone rec.zone rec.name :: r.1, r.2)

/-- Insertion-ordered grouping step for the dict build of lines 301-306. -/
def add_to_groups (groups : List (String × List QuotaZone)) (z : QuotaZone) :
    List (String × List QuotaZone) :=
  match groups with
  | [] => [(z.region, [z])]
  | g :: rest =>
    if g.1 = z.region then (g.1, g.2 ++ [z]) :: rest
    else g :: add_to_groups rest z

/-- The regional_zone_lists dict of lines 301-306: zones grouped by region
in insertion order. -/
def group_by_region (l : List QuotaZone) : List (String × List QuotaZone) :=
  l.foldl add_to_groups []

/-- The per-region loop of main (lines 310-325): create the region's
instances and, when any were created, delete them all before the next
region is processed. -/
def run_regions (base : String) (target : Nat) (cresp dresp : String → List OpResult) :
    List (String × List QuotaZone) → List Event × StepResult Unit
  | [] => ([], StepResult.ok ())
  | g :: rest =>
    let c := create_instances base target cresp [] g.2
    match c.2 with
    | StepResult.hung => (c.1, StepResult.hung)
    | StepResult.raised e => (c.1, StepResult.raised e)
    | StepResult.ok details =>
      if details.isEmpty then
        let r := run_regions base target cresp dresp rest
        (c.1 ++ r.1, r.2)
      else
        let d := delete_instances dresp details
        match d.2 with
        | StepResult.hung => (c.1 ++ d.1, StepResult.hung)
        | StepResult.raised e => (c.1 ++ d.1, StepResult.raised e)
        | StepResult.ok _ =>
          let r := run_regions base target cresp dresp rest
          (c.1 ++ d.1 ++ r.1, r.2)

/-- main (lines 288-336): list zones (one zoneList event), restrict to the
optional allow-list, validate the GPU config, filter by machine type, filter
by quota, group by region and run the per-region create/delete loop. The
closing report rendering performs no provider interaction and is omitted. -/
def gpu_finder_main (cfg : Config) (zone_pages : List (List ZoneItem))
    (machine_pages : String → List (List MachineEntry))
    (accel_pages : String → List (Option (List AcceleratorType)))
    (cresp dresp : String → List OpResult) : List Event × StepResult Unit :=
  let zone_info := get_zone_info zone_pages
  let compute_zones :=
    if cfg.zone_allowlist.isEmpty then zone_info
    else zone_info.filter (fun z => cfg.zone_allowlist.contains z.zone)
  match check_gpu_config cfg.machine_type cfg.number_of_gpus with
  | Except.error e => ([Event.zoneList], StepResult.raised e)
  | Except.ok _ =>
    let m := check_machine_type_and_accelerator cfg.machine_type cfg.gpu_type
      machine_pages compute_zones
    match m.2 with
    | Except.error e => (Event.zoneList :: m.1, StepResult.raised e)
    | Except.ok available =>
      let a := get_accelerator_quota cfg.gpu_type cfg.number_of_gpus accel_pages available
      match a.2 with
      | Except.error e => (Event.zoneList :: m.1 ++ a.1, StepResult.raised e)
      | Except.ok quota =>
        let r := run_regions cfg.name cfg.number_of_instances cresp dresp
          (group_by_region quota)
        (Event.zoneList :: m.1 ++ a.1 ++ r.1, r.2)

/-- All accelerator-type catalog entries of a paginated listing (pages
without an items key contribute nothing). -/
def accel_catalog (pages : List (Option (List AcceleratorType))) : List AcceleratorType :=
  pages.foldr (fun p acc => p.getD [] ++ acc) []

/-- The (zone, instance name) of every insert submission of a trace, in
order: the names create_instances generated. -/
def insert_attempts : List Event → List (String × String)
  | [] => []
  | Event.insert _ z n :: rest => (z, n) :: insert_attempts rest
  | _ :: rest => insert_attempts rest

/-- Number of confirmed instance creations recorded in a trace. -/
def created_count : List Event → Nat
  | [] => 0
  | Event.created _ _ _ :: rest => created_count rest + 1
  | _ :: rest => created_count rest

/-- A configuration asking for one GPU on the two-GPU machine type, used to
exercise the config-mismatch path. -/
def mismatch_cfg : Config :=
  { name := "gpu", machine_type := "a2-highgpu-2g", gpu_type := "nvidia-tesla-a100",
    number_of_gpus := 1, number_of_instances := 1, zone_allowlist := [] }

/-- A single-page zone listing with one UP zone. -/
def one_zone_pages : List (List ZoneItem) :=
  [[{ name := "us-central1-a", status := "UP" }]]

/-- A quota-approved zone used as concrete input. -/
def sample_quota_zone : QuotaZone :=
  { region := "us-central1", zone := "us-central1-a", machine_type := "n1-standard-8",
    guest_cpus := 8, name := "nvidia-tesla-t4", description := "T4", max_gpus := 4 }

/-- A second quota-approved zone in another region. -/
def sample_quota_zone_eu : QuotaZone :=
  { region := "europe-west4", zone := "europe-west4-a", machine_type := "n1-standard-8",
    guest_cpus := 8, name := "nvidia-tesla-t4", description := "T4", max_gpus := 4 }

/-- A provider whose every operation completes successfully at the first
poll. -/
def all_success_resp : String → List OpResult :=
  fun _ => [{ status := "DONE", error := none }]

/-- A configuration for a full two-region run. -/
def tworegion_cfg : Config :=
  { name := "gpu", machine_type := "n1-standard-8", gpu_type := "nvidia-tesla-t4",
    number_of_gpus := 1, number_of_instances := 1, zone_allowlist := [] }

/-- A zone listing with one UP zone in each of two regions. -/
def tworegion_zone_pages : List (List ZoneItem) :=
  [[{ name := "us-central1-a", status := "UP" }, { name := "europe-west4-a", status := "UP" }]]

/-- Machine-type catalogs where every zone offers the requested machine type
paired with the requested accelerator. -/
def tworegion_machine_pages : String → List (List MachineEntry) :=
  fun _ => [[{ name := "n1-standard-8", guestCpus := 8, description := "d",
               accelerators := some [{ guestAcceleratorType := "nvidia-tesla-t4",
                                       guestAcceleratorCount := 1 }] }]]

/-- Accelerator-type catalogs where every zone offers the requested
accelerator with four cards per instance. -/
def tworegion_accel_pages : String → List (Option (List AcceleratorType)) :=
  fun _ => [some [{ name := "nvidia-tesla-t4", description := "T4",
                    maximumCardsPerInstance := 4 }]]

/-- The capable-zone record the two-region catalogs produce for the US
zone. -/
def sample_capable_zone : CapableZone :=
  { machine_type := "n1-standard-8", region := "us-central1", zone := "us-central1-a",
    guest_cpus := 8, description := "d",
    accelerators := some [{ guestAcceleratorType := "nvidia-tesla-t4",
                            guestAcceleratorCount := 1 }] }

/-- A provider whose every create operation completes with a capacity-class
error, so every zone is attempted and none succeeds. -/
def all_exhausted_resp : String → List OpResult :=
  fun _ => [{ status := "DONE",
              error := some { errors := ["ZONE_RESOURCE_POOL_EXHAUSTED"] } }]

/-! ### Helper lemmas -/

lemma asString_data (l : List Char) : (l.asString).data = l := rfl

lemma create_single_instance_isSome (instance_name zone : String) :
    ∀ responses : List OpResult,
      (create_single_instance instance_name zone responses).isSome ↔
        ∃ r ∈ responses, r.status = "DONE" := by
  intro responses
  induction responses with
  | nil => simp [create_single_instance]
  | cons r rest ih =>
    by_cases h : r.status = "DONE"
    · simp only [create_single_instance, h, if_pos]
      constructor
      · intro _; exact ⟨r, List.mem_cons_self r rest, h⟩
      · intro _
        cases r.error with
        | none => simp
        | some err =>
          cases herrs : err.errors with
          | nil => simp [herrs]
          | cons c cs => simp only [herrs]; split <;> simp
    · simp only [create_single_instance, h, if_neg, ite_false]
      rw [ih]
      constructor
      · rintro ⟨x, hx, hs⟩; exact ⟨x, List.mem_cons_of_mem r hx, hs⟩
      · rintro ⟨x, hx, hs⟩
        rcases List.mem_cons.mp hx with rfl | hx2
        · exact absurd hs h
        · exact ⟨x, hx2, hs⟩

lemma delete_poll_isSome :
    ∀ responses : List OpResult,
      (delete_poll responses).isSome ↔ ∃ r ∈ responses, r.status = "DONE" := by
  intro responses
  induction responses with
  | nil => simp [delete_poll]
  | cons r rest ih =>
    by_cases h : r.status = "DONE"
    · simp only [delete_poll, h, if_pos]
      constructor
      · intro _; exact ⟨r, List.mem_cons_self r rest, h⟩
      · intro _; cases r.error <;> simp
    · simp only [delete_poll, h, if_neg, ite_false]
      rw [ih]
      constructor
      · rintro ⟨x, hx, hs⟩; exact ⟨x, List.mem_cons_of_mem r hx, hs⟩
      · rintro ⟨x, hx, hs⟩
        rcases List.mem_cons.mp hx with rfl | hx2
        · exact absurd hs h
        · exact ⟨x, hx2, hs⟩

/-! ### C10: malformed a2 machine types crash int() -/

/-- C10: a machine type that starts with a2 but does not contain highgpu,
such as a2-megagpu-16g, makes check_gpu_config feed the malformed substring
gpu-16 to int(), raising a ValueError rather than passing validation or
raising the configuration-mismatch error. -/
theorem check_gpu_config_megagpu_value_error :
    py_startswith "a2-megagpu-16g" "a2" = true ∧
    py_find "a2-megagpu-16g" "highgpu" = none ∧
    gpu_count_slice "a2-megagpu-16g" = "gpu-16" ∧
    check_gpu_config "a2-megagpu-16g" 16 = Except.error PyExc.valueError :=
  ⟨by decide, by decide, by decide, rfl⟩

/-! ### C1: classification of create-operation errors -/

/-- C1: when the completed create operation reports an error whose first
error code is one of the three capacity-class codes, create_single_instance
returns the empty result (Python None, here skipped); for every other first
error code it raises the exception carrying the operation error. -/
theorem create_single_instance_error_classification
    (instance_name zone : String) (pre : List OpResult) (dres : OpResult)
    (rest : List OpResult) (err : OpError) (c : String) (cs : List String)
    (hpre : ∀ r ∈ pre, r.status ≠ "DONE")
    (hdone : dres.status = "DONE")
    (herr : dres.error = some err)
    (hcode : err.errors = c :: cs) :
    (c ∈ capacity_codes →
      create_single_instance instance_name zone (pre ++ dres :: rest) =
        some CreateResult.skipped) ∧
    (c ∉ capacity_codes →
      create_single_instance instance_name zone (pre ++ dres :: rest) =
        some (CreateResult.exn err)) := by
  induction pre with
  | nil =>
    simp only [List.nil_append, create_single_instance, hdone, if_pos, herr, hcode]
    constructor
    · intro h; rw [if_pos h]
    · intro h; rw [if_neg h]
  | cons r pre ih =>
    have hr : r.status ≠ "DONE" := hpre r (List.mem_cons_self r pre)
    have ihh := ih (fun x hx => hpre x (List.mem_cons_of_mem r hx))
    simpa only [List.cons_append, create_single_instance, hr, if_neg, ite_false] using ihh

theorem create_single_instance_error_classification_witness :
    create_single_instance "probe" "us-central1-a"
      [{status := "DONE", error := some {errors := ["QUOTA_EXCEEDED"]}}] =
      some CreateResult.skipped ∧
    create_single_instance "probe" "us-central1-a"
      [{status := "DONE", error := some {errors := ["PERMISSION_DENIED"]}}] =
      some (CreateResult.exn {errors := ["PERMISSION_DENIED"]}) := by
  constructor
  · exact (create_single_instance_error_classification "probe" "us-central1-a" []
      {status := "DONE", error := some {errors := ["QUOTA_EXCEEDED"]}} []
      {errors := ["QUOTA_EXCEEDED"]} "QUOTA_EXCEEDED" []
      (by intro r hr; simp at hr) rfl rfl rfl).1 (by decide)
  · exact (create_single_instance_error_classification "probe" "us-central1-a" []
      {status := "DONE", error := some {errors := ["PERMISSION_DENIED"]}} []
      {errors := ["PERMISSION_DENIED"]} "PERMISSION_DENIED" []
      (by intro r hr; simp at hr) rfl rfl rfl).2 (by decide)

/-! ### C7: the poll loops terminate exactly on a DONE status -/

/-- C7: both operation-status poll loops return exactly when some response
in the sequence reports status DONE; with no iteration cap or timeout in the
source, a response sequence that never reports DONE leaves the loop running
(modelled as none), however long the sequence. -/
theorem poll_loops_terminate_iff_done :
    ∀ (instance_name zone : String) (responses : List OpResult),
      ((create_single_instance instance_name zone responses).isSome ↔
        ∃ r ∈ responses, r.status = "DONE") ∧
      ∀ dresponses : List OpResult,
        ((delete_poll dresponses).isSome ↔ ∃ r ∈ dresponses, r.status = "DONE") :=
  fun instance_name zone responses =>
    ⟨create_single_instance_isSome instance_name zone responses,
     fun dresponses => delete_poll_isSome dresponses⟩

/-! ### C9: zone listing keeps exactly UP zones, region drops two chars -/

lemma zone_page_step_eq (items : List ZoneItem) :
    ∀ acc : List ZoneInfo,
      zone_page_step acc items =
        acc ++ (items.filter (fun z => z.status == "UP")).map zone_region_record := by
  induction items with
  | nil => intro acc; simp [zone_page_step]
  | cons z t ih =>
    intro acc
    have h1 : zone_page_step acc (z :: t) =
        zone_page_step (if z.status = "UP" then acc ++ [zone_region_record z] else acc) t := rfl
    rw [h1, ih]
    by_cases h : z.status = "UP" <;> simp [h, List.filter_cons]

lemma get_zone_info_foldl (pages : List (List ZoneItem)) :
    ∀ acc : List ZoneInfo,
      pages.foldl zone_page_step acc =
        acc ++ (pages.flatten.filter (fun z => z.status == "UP")).map zone_region_record := by
  induction pages with
  | nil => intro acc; simp
  | cons p ps ih =>
    intro acc
    simp only [List.foldl_cons]
    rw [ih, zone_page_step_eq]
    simp [List.filter_append]

/-- C9: get_zone_info returns exactly the listed zones whose status is UP,
in order, and each returned record's region is the zone name with its last
two characters removed. -/
theorem get_zone_info_up_zones_region (pages : List (List ZoneItem)) :
    get_zone_info pages =
      (pages.flatten.filter (fun z => z.status == "UP")).map zone_region_record ∧
    ∀ r ∈ get_zone_info pages,
      r.region.data = r.zone.data.take (r.zone.data.length - 2) := by
  have h1 : get_zone_info pages =
      (pages.flatten.filter (fun z => z.status == "UP")).map zone_region_record := by
    have := get_zone_info_foldl pages []
    simpa [get_zone_info] using this
  refine ⟨h1, ?_⟩
  intro r hr
  rw [h1] at hr
  obtain ⟨z, _, rfl⟩ := List.mem_map.mp hr
  rfl

/-! ### C5: quota validator never approves a zone below the request -/

lemma accel_entry_keep_spec (gpu_type : String) (requested : Nat) (i : CapableZone)
    (a : AcceleratorType) (r : QuotaZone)
    (h : accel_entry_keep gpu_type requested i a = some r) :
    requested ≤ r.max_gpus ∧ a.name = gpu_type ∧
      a.maximumCardsPerInstance = r.max_gpus ∧ r.zone = i.zone := by
  unfold accel_entry_keep at h
  by_cases h1 : a.name = gpu_type
  · rw [if_pos h1] at h
    by_cases h2 : requested ≤ a.maximumCardsPerInstance
    · rw [if_pos h2] at h
      injection h with h
      subst h
      exact ⟨h2, h1, rfl, rfl⟩
    · rw [if_neg h2] at h; cases h
  · rw [if_neg h1] at h; cases h

lemma accel_pages_scan_mem (gpu_type : String) (requested : Nat) (i : CapableZone) :
    ∀ (pages : List (Option (List AcceleratorType))) (r : QuotaZone),
      r ∈ accel_pages_scan gpu_type requested i pages →
      ∃ a ∈ accel_catalog pages, accel_entry_keep gpu_type requested i a = some r := by
  intro pages
  induction pages with
  | nil => intro r hr; cases hr
  | cons p ps ih =>
    intro r hr
    rcases List.mem_append.mp hr with hl | hrr
    · cases p with
      | none => cases hl
      | some items =>
        obtain ⟨a, ha, hk⟩ := List.mem_filterMap.mp hl
        exact ⟨a, by simp [accel_catalog, ha], hk⟩
    · obtain ⟨a, ha, hk⟩ := ih r hrr
      refine ⟨a, ?_, hk⟩
      simp only [accel_catalog, List.foldr_cons] at ha ⊢
      exact List.mem_append.mpr (Or.inr ha)

lemma accel_zones_scan_mem (gpu_type : String) (requested : Nat)
    (pages : String → List (Option (List AcceleratorType))) :
    ∀ (zones : List CapableZone) (r : QuotaZone),
      r ∈ (accel_zones_scan gpu_type requested pages zones).2 →
      ∃ i ∈ zones, ∃ a ∈ accel_catalog (pages i.zone),
        accel_entry_keep gpu_type requested i a = some r := by
  intro zones
  induction zones with
  | nil => intro r hr; cases hr
  | cons i rest ih =>
    intro r hr
    simp only [accel_zones_scan] at hr
    rcases List.mem_append.mp hr with hl | hrr
    · obtain ⟨a, ha, hk⟩ := accel_pages_scan_mem gpu_type requested i (pages i.zone) r hl
      exact ⟨i, List.mem_cons_self i rest, a, ha, hk⟩
    · obtain ⟨j, hj, a, ha, hk⟩ := ih r hrr
      exact ⟨j, List.mem_cons_of_mem i hj, a, ha, hk⟩

/-- C5: every record get_accelerator_quota returns satisfies
requested ≤ max_gpus, and that bound is the maximumCardsPerInstance of a
matching entry of the returned zone's accelerator-type catalog; no returned
zone has requested > maximumCardsPerInstance. -/
theorem get_accelerator_quota_respects_max (gpu_type : String) (requested : Nat)
    (pages : String → List (Option (List AcceleratorType))) (zones : List CapableZone)
    (out : List QuotaZone)
    (h : (get_accelerator_quota gpu_type requested pages zones).2 = Except.ok out) :
    ∀ r ∈ out, requested ≤ r.max_gpus ∧
      ∃ a ∈ accel_catalog (pages r.zone),
        a.name = gpu_type ∧ a.maximumCardsPerInstance = r.max_gpus := by
  intro r hr
  simp only [get_accelerator_quota] at h
  split at h
  · cases h
  · injection h with h
    subst h
    obtain ⟨i, _, a, ha, hk⟩ := accel_zones_scan_mem gpu_type requested pages zones r hr
    obtain ⟨hle, hname, hmax, hzone⟩ := accel_entry_keep_spec gpu_type requested i a r hk
    exact ⟨hle, a, by rwa [hzone], hname, hmax⟩

theorem get_accelerator_quota_respects_max_witness :
    1 ≤ sample_quota_zone.max_gpus ∧
    ∃ a ∈ accel_catalog (tworegion_accel_pages sample_quota_zone.zone),
      a.name = "nvidia-tesla-t4" ∧ a.maximumCardsPerInstance = sample_quota_zone.max_gpus := by
  have h := get_accelerator_quota_respects_max "nvidia-tesla-t4" 1 tworegion_accel_pages
    [{ machine_type := "n1-standard-8", region := "us-central1", zone := "us-central1-a",
       guest_cpus := 8, description := "d",
       accelerators := some [{ guestAcceleratorType := "nvidia-tesla-t4",
                               guestAcceleratorCount := 1 }] }]
    [sample_quota_zone] rfl sample_quota_zone (List.mem_singleton.mpr rfl)
  exact h

/-! ### C2: the mismatch is raised before any listing except the zone list -/

/-- C2 counterexample: with machine type a2-highgpu-2g and number_of_gpus 1
the configuration-mismatch error is raised, but the zone listing has already
been performed by then: the run's trace contains the zoneList provider call,
refuting that no provider call (including zone listing) occurs. -/
theorem gpu_mismatch_zone_listing_cex :
    gpu_finder_main mismatch_cfg one_zone_pages (fun _ => []) (fun _ => [])
      (fun _ => []) (fun _ => []) =
      ([Event.zoneList], StepResult.raised PyExc.configMismatch) ∧
    Event.zoneList ∈ (gpu_finder_main mismatch_cfg one_zone_pages (fun _ => [])
      (fun _ => []) (fun _ => []) (fun _ => [])).1 := by
  constructor
  · rfl
  · rw [show (gpu_finder_main mismatch_cfg one_zone_pages (fun _ => []) (fun _ => [])
      (fun _ => []) (fun _ => [])).1 = [Event.zoneList] from rfl]
    exact List.mem_singleton.mpr rfl

/-- C2 amended: for every configuration whose machine type is in the
accelerator-optimized a2 family with a parseable encoded GPU count that
differs from number_of_gpus, the run raises the configuration-mismatch
error before any machine-type listing, accelerator listing, instance insert
or delete — its whole trace is the single zoneList event — but the zone
listing itself has already occurred, since main lists zones before
validating the configuration. -/
theorem gpu_mismatch_aborts_after_zone_listing
    (cfg : Config) (zone_pages : List (List ZoneItem))
    (machine_pages : String → List (List MachineEntry))
    (accel_pages : String → List (Option (List AcceleratorType)))
    (cresp dresp : String → List OpResult) (g : Nat)
    (h1 : py_startswith cfg.machine_type "a2" = true)
    (h2 : py_int (gpu_count_slice cfg.machine_type) = some g)
    (h3 : cfg.number_of_gpus ≠ g) :
    gpu_finder_main cfg zone_pages machine_pages accel_pages cresp dresp =
      ([Event.zoneList], StepResult.raised PyExc.configMismatch) := by
  have hc : check_gpu_config cfg.machine_type cfg.number_of_gpus =
      Except.error PyExc.configMismatch := by
    unfold check_gpu_config
    rw [if_pos h1, h2]
    exact if_pos h3
  unfold gpu_finder_main
  rw [hc]

theorem gpu_mismatch_aborts_after_zone_listing_witness :
    gpu_finder_main mismatch_cfg tworegion_zone_pages tworegion_machine_pages
      tworegion_accel_pages all_success_resp all_success_resp =
      ([Event.zoneList], StepResult.raised PyExc.configMismatch) :=
  gpu_mismatch_aborts_after_zone_listing mismatch_cfg tworegion_zone_pages
    tworegion_machine_pages tworegion_accel_pages all_success_resp all_success_resp
    2 (by decide) (by decide) (by decide)

/-! ### C6: capability filter records match the requested machine type -/

lemma machine_entry_scan_spec (machine_type gpu_type : String) (z : ZoneInfo)
    (m : MachineEntry) (r : CapableZone)
    (h : machine_entry_scan machine_type gpu_type z m = Except.ok (some r)) :
    m.name = machine_type ∧ r.machine_type = machine_type ∧ r.region = z.region ∧
      r.zone = z.zone ∧ r.guest_cpus = m.guestCpus ∧
      ((∃ a t, m.accelerators = some (a :: t) ∧ a.guestAcceleratorType = gpu_type ∧
          r.accelerators = some (a :: t)) ∨
        (r.accelerators = none ∧
          ∀ a t, m.accelerators = some (a :: t) → a.guestAcceleratorType ≠ gpu_type)) := by
  obtain ⟨mn, mc, md, macc⟩ := m
  cases macc with
  | none =>
    simp only [machine_entry_scan] at h
    by_cases hn : mn = machine_type
    · rw [if_pos hn] at h
      injection h with h
      injection h with h
      subst h
      exact ⟨hn, hn, rfl, rfl, rfl,
        Or.inr ⟨rfl, fun a t hat => Option.noConfusion hat⟩⟩
    · rw [if_neg hn] at h
      simp at h
  | some accs =>
    cases accs with
    | nil =>
      simp only [machine_entry_scan] at h
      by_cases hn : mn = machine_type
      · rw [if_pos hn] at h; simp at h
      · rw [if_neg hn] at h; simp at h
    | cons a t =>
      simp only [machine_entry_scan] at h
      by_cases hn : mn = machine_type
      · by_cases hg : a.guestAcceleratorType = gpu_type
        · rw [if_pos hn, if_pos hg] at h
          injection h with h
          injection h with h
          subst h
          exact ⟨hn, hn, rfl, rfl, rfl, Or.inl ⟨a, t, rfl, hg, rfl⟩⟩
        · rw [if_pos hn, if_neg hg] at h
          injection h with h
          injection h with h
          subst h
          refine ⟨hn, hn, rfl, rfl, rfl, Or.inr ⟨rfl, ?_⟩⟩
          intro a2 t2 hat
          injection hat with hat
          injection hat with hat1 hat2
          rw [← hat1]
          exact hg
      · rw [if_neg hn] at h
        simp at h

lemma machine_list_scan_mem (machine_type gpu_type : String) (z : ZoneInfo) :
    ∀ (l : List MachineEntry) (out : List CapableZone) (r : CapableZone),
      machine_list_scan machine_type gpu_type z l = Except.ok out → r ∈ out →
      ∃ m ∈ l, machine_entry_scan machine_type gpu_type z m = Except.ok (some r) := by
  intro l
  induction l with
  | nil =>
    intro out r h hr
    injection h with h
    subst h
    cases hr
  | cons m rest ih =>
    intro out r h hr
    unfold machine_list_scan at h
    cases he : machine_entry_scan machine_type gpu_type z m with
    | error e => rw [he] at h; simp at h
    | ok found =>
      rw [he] at h
      cases hrest : machine_list_scan machine_type gpu_type z rest with
      | error e => rw [hrest] at h; simp at h
      | ok l2 =>
        rw [hrest] at h
        injection h with h
        subst h
        rcases List.mem_append.mp hr with h1 | h2
        · cases found with
          | none => cases h1
          | some x =>
            have hx : r = x := List.mem_singleton.mp h1
            subst hx
            exact ⟨m, List.mem_cons_self m rest, he⟩
        · obtain ⟨m2, hm2, hs⟩ := ih l2 r hrest h2
          exact ⟨m2, List.mem_cons_of_mem m hm2, hs⟩

lemma machine_pages_scan_mem (machine_type gpu_type : String) (z : ZoneInfo) :
    ∀ (pages : List (List MachineEntry)) (out : List CapableZone) (r : CapableZone),
      machine_pages_scan machine_type gpu_type z pages = Except.ok out → r ∈ out →
      ∃ m ∈ pages.flatten, machine_entry_scan machine_type gpu_type z m = Except.ok (some r) := by
  intro pages
  induction pages with
  | nil =>
    intro out r h hr
    injection h with h
    subst h
    cases hr
  | cons p ps ih =>
    intro out r h hr
    unfold machine_pages_scan at h
    cases hp : machine_list_scan machine_type gpu_type z p with
    | error e => rw [hp] at h; simp at h
    | ok l1 =>
      rw [hp] at h
      cases hps : machine_pages_scan machine_type gpu_type z ps with
      | error e => rw [hps] at h; simp at h
      | ok l2 =>
        rw [hps] at h
        injection h with h
        subst h
        rcases List.mem_append.mp hr with h1 | h2
        · obtain ⟨m, hm, hs⟩ := machine_list_scan_mem machine_type gpu_type z p l1 r hp h1
          exact ⟨m, by simp [hm], hs⟩
        · obtain ⟨m, hm, hs⟩ := ih l2 r hps h2
          refine ⟨m, ?_, hs⟩
          simp only [List.flatten_cons]
          exact List.mem_append.mpr (Or.inr hm)

lemma machine_zones_scan_mem (machine_type gpu_type : String)
    (pages : String → List (List MachineEntry)) :
    ∀ (zones : List ZoneInfo) (out : List CapableZone) (r : CapableZone),
      (machine_zones_scan machine_type gpu_type pages zones).2 = Except.ok out → r ∈ out →
      ∃ z ∈ zones, ∃ m ∈ (pages z.zone).flatten,
        machine_entry_scan machine_type gpu_type z m = Except.ok (some r) := by
  intro zones
  induction zones with
  | nil =>
    intro out r h hr
    injection h with h
    subst h
    cases hr
  | cons z rest ih =>
    intro out r h hr
    simp only [machine_zones_scan] at h
    cases hp : machine_pages_scan machine_type gpu_type z (pages z.zone) with
    | error e => rw [hp] at h; simp at h
    | ok found =>
      rw [hp] at h
      simp only at h
      cases hrest : (machine_zones_scan machine_type gpu_type pages rest).2 with
      | error e => rw [hrest] at h; simp at h
      | ok l2 =>
        rw [hrest] at h
        injection h with h
        subst h
        rcases List.mem_append.mp hr with h1 | h2
        · obtain ⟨m, hm, hs⟩ :=
            machine_pages_scan_mem machine_type gpu_type z (pages z.zone) found r hp h1
          exact ⟨z, List.mem_cons_self z rest, m, hm, hs⟩
        · obtain ⟨z2, hz2, m, hm, hs⟩ := ih l2 r hrest h2
          exact ⟨z2, List.mem_cons_of_mem z hz2, m, hm, hs⟩

/-- C6: every record the capability filter returns stems from a catalog
entry of the returned zone whose name equals the requested machine type
exactly, and the record carries the accelerator descriptor exactly when
that entry lists accelerators whose first element's type matches the
requested accelerator type; otherwise the record carries none. -/
theorem check_machine_type_records_sound (machine_type gpu_type : String)
    (pages : String → List (List MachineEntry)) (zones : List ZoneInfo)
    (out : List CapableZone)
    (h : (check_machine_type_and_accelerator machine_type gpu_type pages zones).2 =
      Except.ok out) :
    ∀ r ∈ out, r.machine_type = machine_type ∧
      ∃ z ∈ zones, r.region = z.region ∧ r.zone = z.zone ∧
        ∃ m ∈ (pages z.zone).flatten, m.name = machine_type ∧ r.guest_cpus = m.guestCpus ∧
          ((∃ a t, m.accelerators = some (a :: t) ∧ a.guestAcceleratorType = gpu_type ∧
              r.accelerators = some (a :: t)) ∨
            (r.accelerators = none ∧
              ∀ a t, m.accelerators = some (a :: t) → a.guestAcceleratorType ≠ gpu_type)) := by
  intro r hr
  simp only [check_machine_type_and_accelerator] at h
  cases hz : (machine_zones_scan machine_type gpu_type pages zones).2 with
  | error e => simp [hz] at h
  | ok l =>
    simp only [hz] at h
    by_cases hl : l.isEmpty
    · rw [if_pos hl] at h; simp at h
    · rw [if_neg hl] at h
      injection h with h
      subst h
      obtain ⟨z, hzz, m, hm, hs⟩ := machine_zones_scan_mem machine_type gpu_type pages
        zones l r hz hr
      obtain ⟨h1, h2, h3, h4, h5, h6⟩ := machine_entry_scan_spec machine_type gpu_type
        z m r hs
      exact ⟨h2, z, hzz, h3, h4, m, hm, h1, h5, h6⟩

theorem check_machine_type_records_sound_witness :
    sample_capable_zone.machine_type = "n1-standard-8" ∧
    ∃ z ∈ [({ region := "us-central1", zone := "us-central1-a" } : ZoneInfo)],
      sample_capable_zone.region = z.region ∧ sample_capable_zone.zone = z.zone ∧
      ∃ m ∈ (tworegion_machine_pages z.zone).flatten,
        m.name = "n1-standard-8" ∧ sample_capable_zone.guest_cpus = m.guestCpus ∧
        ((∃ a t, m.accelerators = some (a :: t) ∧
            a.guestAcceleratorType = "nvidia-tesla-t4" ∧
            sample_capable_zone.accelerators = some (a :: t)) ∨
          (sample_capable_zone.accelerators = none ∧
            ∀ a t, m.accelerators = some (a :: t) →
              a.guestAcceleratorType ≠ "nvidia-tesla-t4")) :=
  check_machine_type_records_sound "n1-standard-8" "nvidia-tesla-t4"
    tworegion_machine_pages [{ region := "us-central1", zone := "us-central1-a" }]
    [sample_capable_zone] rfl sample_capable_zone (List.mem_singleton.mpr rfl)

/-! ### C3: orchestrator bounds and early return -/

lemma create_instances_len_le_zones (base : String) (target : Nat)
    (resp : String → List OpResult) :
    ∀ (zones : List QuotaZone) (created recs : List InstanceRecord),
      (create_instances base target resp created zones).2 = StepResult.ok recs →
      recs.length ≤ created.length + zones.length := by
  intro zones
  induction zones with
  | nil =>
    intro created recs h
    injection h with h
    subst h
    simp
  | cons z rest ih =>
    intro created recs h
    simp only [create_instances] at h
    cases hc : create_single_instance (mk_instance_name base (created.length + 1) z.zone)
        z.zone (resp z.zone) with
    | none => simp [hc] at h
    | some res =>
      cases res with
      | crash => simp [hc] at h
      | exn e => simp [hc] at h
      | skipped =>
        simp only [hc] at h
        by_cases ht : target ≤ created.length
        · simp only [if_pos ht] at h
          injection h with h
          subst h
          simp only [List.length_cons]
          omega
        · simp only [if_neg ht] at h
          have := ih created recs h
          simp only [List.length_cons]
          omega
      | created rec =>
        simp only [hc] at h
        by_cases ht : target ≤ created.length + 1
        · simp only [if_pos ht] at h
          injection h with h
          subst h
          simp only [List.length_append, List.length_cons, List.length_singleton, List.length_nil]
          omega
        · simp only [if_neg ht] at h
          have := ih (created ++ [rec]) recs h
          simp only [List.length_append, List.length_cons, List.length_singleton, List.length_nil] at this
          simp only [List.length_cons]
          omega

lemma create_instances_len_le_target (base : String) (target : Nat)
    (resp : String → List OpResult) :
    ∀ (zones : List QuotaZone) (created recs : List InstanceRecord),
      created.length < target →
      (create_instances base target resp created zones).2 = StepResult.ok recs →
      recs.length ≤ target := by
  intro zones
  induction zones with
  | nil =>
    intro created recs hlt h
    injection h with h
    subst h
    omega
  | cons z rest ih =>
    intro created recs hlt h
    simp only [create_instances] at h
    cases hc : create_single_instance (mk_instance_name base (created.length + 1) z.zone)
        z.zone (resp z.zone) with
    | none => simp [hc] at h
    | some res =>
      cases res with
      | crash => simp [hc] at h
      | exn e => simp [hc] at h
      | skipped =>
        simp only [hc] at h
        by_cases ht : target ≤ created.length
        · simp only [if_pos ht] at h
          injection h with h
          subst h
          omega
        · simp only [if_neg ht] at h
          exact ih created recs hlt h
      | created rec =>
        simp only [hc] at h
        by_cases ht : target ≤ created.length + 1
        · simp only [if_pos ht] at h
          injection h with h
          subst h
          simp only [List.length_append, List.length_singleton]
          omega
        · simp only [if_neg ht] at h
          have := ih (created ++ [rec]) recs (by simp; omega) h
          exact this

/-- C3 counterexample: with the configured target number_of_instances = 0,
create_instances still attempts the first zone before checking the target
(line 122 runs after the attempt), so a run over one zone whose creation
succeeds returns one record, exceeding the target of zero. -/
theorem create_instances_zero_target_cex :
    (create_instances "gpu" 0 all_success_resp [] [sample_quota_zone]).2 =
      StepResult.ok [{ name := "gpu-1-us-central1-a", zone := "us-central1-a" }] ∧
    ¬ ([({ name := "gpu-1-us-central1-a", zone := "us-central1-a" } : InstanceRecord)].length ≤ 0) :=
  ⟨rfl, by decide⟩

/-- C3 amended: provided the configured target is at least one,
create_instances returns at most target-many records and at most one record
per supplied zone, and the moment a successful creation brings the running
count up to the target it returns immediately: the zones remaining after
that one are irrelevant to the result. For target zero the first zone is
still attempted before the target check, as the counterexample shows. -/
theorem create_instances_bounds (base : String) (target : Nat)
    (resp : String → List OpResult) (htarget : 1 ≤ target) :
    (∀ (zones : List QuotaZone) (recs : List InstanceRecord),
      (create_instances base target resp [] zones).2 = StepResult.ok recs →
      recs.length ≤ target ∧ recs.length ≤ zones.length) ∧
    (∀ (created : List InstanceRecord) (z : QuotaZone) (rest : List QuotaZone)
        (rec : InstanceRecord),
      create_single_instance (mk_instance_name base (created.length + 1) z.zone) z.zone
        (resp z.zone) = some (CreateResult.created rec) →
      target ≤ created.length + 1 →
      create_instances base target resp created (z :: rest) =
        create_instances base target resp created [z]) := by
  constructor
  · intro zones recs h
    constructor
    · exact create_instances_len_le_target base target resp zones [] recs
        (by simpa using htarget) h
    · have := create_instances_len_le_zones base target resp zones [] recs h
      simpa using this
  · intro created z rest rec hc ht
    simp only [create_instances, hc, if_pos ht]

theorem create_instances_bounds_witness :
    ([({ name := "gpu-1-us-central1-a", zone := "us-central1-a" } : InstanceRecord)]).length ≤ 1 ∧
    ([({ name := "gpu-1-us-central1-a", zone := "us-central1-a" } : InstanceRecord)]).length ≤
      ([sample_quota_zone]).length :=
  (create_instances_bounds "gpu" 1 all_success_resp (by decide)).1 [sample_quota_zone]
    [{ name := "gpu-1-us-central1-a", zone := "us-central1-a" }] rfl

/-! ### C8: generated instance names -/

lemma string_data_append (s t : String) : (s ++ t).data = s.data ++ t.data := by
  cases s
  cases t
  rfl

lemma dash_data : ("-" : String).data = ['-'] := rfl

lemma digitChar_ne_dash (k : Nat) : Nat.digitChar k ≠ '-' := by
  by_cases h : k < 16
  · interval_cases k <;> decide
  · have h2 : Nat.digitChar k = '*' := by
      unfold Nat.digitChar
      repeat rw [if_neg (by omega)]
    rw [h2]
    decide

lemma toDigitsCore_no_dash :
    ∀ (fuel n : Nat) (ds : List Char), '-' ∉ ds → '-' ∉ Nat.toDigitsCore 10 fuel n ds := by
  intro fuel
  induction fuel with
  | zero => intro n ds h; simpa [Nat.toDigitsCore] using h
  | succ f ih =>
    intro n ds h
    simp only [Nat.toDigitsCore]
    split
    · intro hmem
      rcases List.mem_cons.mp hmem with h1 | h2
      · exact digitChar_ne_dash (n % 10) h1.symm
      · exact h h2
    · apply ih
      intro hmem
      rcases List.mem_cons.mp hmem with h1 | h2
      · exact digitChar_ne_dash (n % 10) h1.symm
      · exact h h2

lemma repr_no_dash (n : Nat) : '-' ∉ (Nat.repr n).data :=
  toDigitsCore_no_dash (n + 1) n [] (by simp)

lemma append_dash_inj :
    ∀ (a1 a2 b1 b2 : List Char), '-' ∉ a1 → '-' ∉ a2 →
      a1 ++ '-' :: b1 = a2 ++ '-' :: b2 → a1 = a2 ∧ b1 = b2 := by
  intro a1
  induction a1 with
  | nil =>
    intro a2 b1 b2 h1 h2 he
    cases a2 with
    | nil =>
      simp only [List.nil_append] at he
      injection he with _ he2
      exact ⟨rfl, he2⟩
    | cons c t =>
      simp only [List.nil_append, List.cons_append] at he
      injection he with hc _
      exact absurd (hc ▸ List.mem_cons_self '-' t) h2
  | cons c t ih =>
    intro a2 b1 b2 h1 h2 he
    cases a2 with
    | nil =>
      simp only [List.cons_append, List.nil_append] at he
      injection he with hc _
      exact absurd (hc.symm ▸ List.mem_cons_self '-' t) h1
    | cons c2 t2 =>
      simp only [List.cons_append] at he
      injection he with hc hrest
      have h1b : '-' ∉ t := fun hm => h1 (List.mem_cons_of_mem c hm)
      have h2b : '-' ∉ t2 := fun hm => h2 (List.mem_cons_of_mem c2 hm)
      obtain ⟨ha, hb⟩ := ih t2 b1 b2 h1b h2b hrest
      exact ⟨by rw [hc, ha], hb⟩

lemma mk_instance_name_zone_eq (base : String) (o1 o2 : Nat) (z1 z2 : String)
    (h : mk_instance_name base o1 z1 = mk_instance_name base o2 z2) : z1 = z2 := by
  have hd : (mk_instance_name base o1 z1).data = (mk_instance_name base o2 z2).data := by
    rw [h]
  simp only [mk_instance_name, string_data_append, dash_data, List.append_assoc,
    List.singleton_append] at hd
  have hd2 := List.append_cancel_left hd
  injection hd2 with _ hd3
  obtain ⟨_, hz⟩ := append_dash_inj (Nat.repr o1).data (Nat.repr o2).data z1.data z2.data
    (repr_no_dash o1) (repr_no_dash o2) hd3
  exact String.ext hz
lemma create_instances_insert_name_eq (base : String) (target : Nat)
    (resp : String → List OpResult) :
    ∀ (zones : List QuotaZone) (created : List InstanceRecord)
      (t1 : List Event) (r z nm : String) (t2 : List Event),
      (create_instances base target resp created zones).1 = t1 ++ Event.insert r z nm :: t2 →
      nm = mk_instance_name base (created.length + created_count t1 + 1) z := by
  intro zones
  induction zones with
  | nil =>
    intro created t1 r z nm t2 h
    simp only [create_instances] at h
    cases t1 <;> simp at h
  | cons q rest ih =>
    intro created t1 r z nm t2 h
    simp only [create_instances] at h
    cases hc : create_single_instance (mk_instance_name base (created.length + 1) q.zone)
        q.zone (resp q.zone) with
    | none =>
      simp only [hc] at h
      cases t1 with
      | nil =>
        simp only [List.nil_append] at h
        injection h with h1 h2
        injection h1 with hr hz hn
        subst hz; subst hn
        simp [created_count]
      | cons e t1b =>
        simp only [List.cons_append] at h
        injection h with h1 h2
        cases t1b <;> simp at h2
    | some res =>
      cases res with
      | crash =>
        simp only [hc] at h
        cases t1 with
        | nil =>
          simp only [List.nil_append] at h
          injection h with h1 h2
          injection h1 with hr hz hn
          subst hz; subst hn
          simp [created_count]
        | cons e t1b =>
          simp only [List.cons_append] at h
          injection h with h1 h2
          cases t1b <;> simp at h2
      | exn e0 =>
        simp only [hc] at h
        cases t1 with
        | nil =>
          simp only [List.nil_append] at h
          injection h with h1 h2
          injection h1 with hr hz hn
          subst hz; subst hn
          simp [created_count]
        | cons e t1b =>
          simp only [List.cons_append] at h
          injection h with h1 h2
          cases t1b <;> simp at h2
      | skipped =>
        simp only [hc] at h
        by_cases ht : target ≤ created.length
        · simp only [if_pos ht] at h
          cases t1 with
          | nil =>
            simp only [List.nil_append] at h
            injection h with h1 h2
            injection h1 with hr hz hn
            subst hz; subst hn
            simp [created_count]
          | cons e t1b =>
            simp only [List.cons_append] at h
            injection h with h1 h2
            cases t1b <;> simp at h2
        · simp only [if_neg ht] at h
          cases t1 with
          | nil =>
            simp only [List.nil_append] at h
            injection h with h1 h2
            injection h1 with hr hz hn
            subst hz; subst hn
            simp [created_count]
          | cons e t1b =>
            simp only [List.cons_append] at h
            injection h with h1 h2
            subst h1
            have hres := ih created t1b r z nm t2 h2
            rw [hres]
            refine congrArg (fun k => mk_instance_name base k z) ?_
            simp [created_count]
      | created rec =>
        simp only [hc] at h
        by_cases ht : target ≤ created.length + 1
        · simp only [if_pos ht] at h
          cases t1 with
          | nil =>
            simp only [List.nil_append] at h
            injection h with h1 h2
            injection h1 with hr hz hn
            subst hz; subst hn
            simp [created_count]
          | cons e t1b =>
            simp only [List.cons_append] at h
            injection h with h1 h2
            cases t1b with
            | nil =>
              simp only [List.nil_append] at h2
              injection h2 with h3 h4
              simp at h3
            | cons e2 t1c =>
              simp only [List.cons_append] at h2
              injection h2 with h3 h4
              cases t1c <;> simp at h4
        · simp only [if_neg ht] at h
          cases t1 with
          | nil =>
            simp only [List.nil_append] at h
            injection h with h1 h2
            injection h1 with hr hz hn
            subst hz; subst hn
            simp [created_count]
          | cons e t1b =>
            simp only [List.cons_append] at h
            injection h with h1 h2
            subst h1
            cases t1b with
            | nil =>
              simp only [List.nil_append] at h2
              injection h2 with h3 h4
              simp at h3
            | cons e2 t1c =>
              simp only [List.cons_append] at h2
              injection h2 with h3 h4
              subst h3
              have hres := ih (created ++ [rec]) t1c r z nm t2 h4
              rw [hres]
              refine congrArg (fun k => mk_instance_name base k z) ?_
              simp [created_count, List.length_append]
              omega

lemma insert_attempts_zone_mem (base : String) (target : Nat)
    (resp : String → List OpResult) :
    ∀ (zones : List QuotaZone) (created : List InstanceRecord) (p : String × String),
      p ∈ insert_attempts (create_instances base target resp created zones).1 →
      p.1 ∈ zones.map (fun q => q.zone) := by
  intro zones
  induction zones with
  | nil =>
    intro created p hp
    simp [create_instances, insert_attempts] at hp
  | cons q rest ih =>
    intro created p hp
    simp only [create_instances] at hp
    cases hc : create_single_instance (mk_instance_name base (created.length + 1) q.zone)
        q.zone (resp q.zone) with
    | none =>
      simp only [hc, insert_attempts] at hp
      rcases List.mem_singleton.mp hp with rfl
      simp
    | some res =>
      cases res with
      | crash =>
        simp only [hc, insert_attempts] at hp
        rcases List.mem_singleton.mp hp with rfl
        simp
      | exn e0 =>
        simp only [hc, insert_attempts] at hp
        rcases List.mem_singleton.mp hp with rfl
        simp
      | skipped =>
        simp only [hc] at hp
        by_cases ht : target ≤ created.length
        · simp only [if_pos ht, insert_attempts] at hp
          rcases List.mem_singleton.mp hp with rfl
          simp
        · simp only [if_neg ht, insert_attempts] at hp
          rcases List.mem_cons.mp hp with rfl | hp2
          · simp
          · have := ih created p hp2
            simp only [List.map_cons]
            exact List.mem_cons_of_mem _ this
      | created rec =>
        simp only [hc] at hp
        by_cases ht : target ≤ created.length + 1
        · simp only [if_pos ht, insert_attempts] at hp
          rcases List.mem_singleton.mp hp with rfl
          simp
        · simp only [if_neg ht, insert_attempts] at hp
          rcases List.mem_cons.mp hp with rfl | hp2
          · simp
          · have := ih (created ++ [rec]) p hp2
            simp only [List.map_cons]
            exact List.mem_cons_of_mem _ this

lemma insert_attempts_zone_pairwise (base : String) (target : Nat)
    (resp : String → List OpResult) :
    ∀ (zones : List QuotaZone) (created : List InstanceRecord),
      (zones.map (fun q => q.zone)).Pairwise (fun a b => a ≠ b) →
      (insert_attempts (create_instances base target resp created zones).1).Pairwise
        (fun p q => p.1 ≠ q.1) := by
  intro zones
  induction zones with
  | nil =>
    intro created hz
    simp [create_instances, insert_attempts]
  | cons q rest ih =>
    intro created hz
    simp only [List.map_cons, List.pairwise_cons] at hz
    obtain ⟨hhead, htail⟩ := hz
    simp only [create_instances]
    cases hc : create_single_instance (mk_instance_name base (created.length + 1) q.zone)
        q.zone (resp q.zone) with
    | none => simp [insert_attempts]
    | some res =>
      cases res with
      | crash => simp [insert_attempts]
      | exn e0 => simp [insert_attempts]
      | skipped =>
        by_cases ht : target ≤ created.length
        · simp only [if_pos ht]
          simp [insert_attempts]
        · simp only [if_neg ht]
          simp only [insert_attempts, List.pairwise_cons]
          constructor
          · intro p hp
            have := insert_attempts_zone_mem base target resp rest created p hp
            exact hhead p.1 this
          · exact ih created htail
      | created rec =>
        by_cases ht : target ≤ created.length + 1
        · simp only [if_pos ht]
          simp [insert_attempts]
        · simp only [if_neg ht]
          simp only [insert_attempts, List.pairwise_cons]
          constructor
          · intro p hp
            have := insert_attempts_zone_mem base target resp rest (created ++ [rec]) p hp
            exact hhead p.1 this
          · exact ih (created ++ [rec]) htail

lemma insert_attempts_name_form (base : String) (target : Nat)
    (resp : String → List OpResult) :
    ∀ (zones : List QuotaZone) (created : List InstanceRecord) (p : String × String),
      p ∈ insert_attempts (create_instances base target resp created zones).1 →
      ∃ o, p.2 = mk_instance_name base o p.1 := by
  intro zones
  induction zones with
  | nil =>
    intro created p hp
    simp [create_instances, insert_attempts] at hp
  | cons q rest ih =>
    intro created p hp
    simp only [create_instances] at hp
    cases hc : create_single_instance (mk_instance_name base (created.length + 1) q.zone)
        q.zone (resp q.zone) with
    | none =>
      simp only [hc, insert_attempts] at hp
      rcases List.mem_singleton.mp hp with rfl
      exact ⟨created.length + 1, rfl⟩
    | some res =>
      cases res with
      | crash =>
        simp only [hc, insert_attempts] at hp
        rcases List.mem_singleton.mp hp with rfl
        exact ⟨created.length + 1, rfl⟩
      | exn e0 =>
        simp only [hc, insert_attempts] at hp
        rcases List.mem_singleton.mp hp with rfl
        exact ⟨created.length + 1, rfl⟩
      | skipped =>
        simp only [hc] at hp
        by_cases ht : target ≤ created.length
        · simp only [if_pos ht, insert_attempts] at hp
          rcases List.mem_singleton.mp hp with rfl
          exact ⟨created.length + 1, rfl⟩
        · simp only [if_neg ht, insert_attempts] at hp
          rcases List.mem_cons.mp hp with rfl | hp2
          · exact ⟨created.length + 1, rfl⟩
          · exact ih created p hp2
      | created rec =>
        simp only [hc] at hp
        by_cases ht : target ≤ created.length + 1
        · simp only [if_pos ht, insert_attempts] at hp
          rcases List.mem_singleton.mp hp with rfl
          exact ⟨created.length + 1, rfl⟩
        · simp only [if_neg ht, insert_attempts] at hp
          rcases List.mem_cons.mp hp with rfl | hp2
          · exact ⟨created.length + 1, rfl⟩
          · exact ih (created ++ [rec]) p hp2

/-- C8: in a create_instances run over pairwise-distinct zones (each zone
attempted at most once), every submitted instance name equals
base-(ordinal)-(zone) where the ordinal is one plus the number of instances
already created at that point of the run, the name being the deterministic
function mk_instance_name of (base, ordinal, zone); and all generated names
are pairwise distinct. -/
theorem instance_names_unique (base : String) (target : Nat) (resp : String → List OpResult)
    (zones : List QuotaZone)
    (hzones : (zones.map (fun q => q.zone)).Pairwise (fun a b => a ≠ b)) :
    (∀ (t1 : List Event) (r z nm : String) (t2 : List Event),
      (create_instances base target resp [] zones).1 = t1 ++ Event.insert r z nm :: t2 →
      nm = mk_instance_name base (created_count t1 + 1) z) ∧
    ((insert_attempts (create_instances base target resp [] zones).1).map Prod.snd).Pairwise
      (fun a b => a ≠ b) := by
  constructor
  · intro t1 r z nm t2 h
    have := create_instances_insert_name_eq base target resp zones [] t1 r z nm t2 h
    simpa using this
  · rw [List.pairwise_map]
    have hzp := insert_attempts_zone_pairwise base target resp zones [] hzones
    apply List.Pairwise.imp_of_mem ?_ hzp
    intro p q hp hq hne
    obtain ⟨o1, ho1⟩ := insert_attempts_name_form base target resp zones [] p hp
    obtain ⟨o2, ho2⟩ := insert_attempts_name_form base target resp zones [] q hq
    intro heq
    apply hne
    rw [ho1, ho2] at heq
    exact mk_instance_name_zone_eq base o1 o2 p.1 q.1 heq

theorem instance_names_unique_witness :
    ((insert_attempts (create_instances "gpu" 1 all_exhausted_resp []
        [sample_quota_zone, sample_quota_zone_eu]).1).map Prod.snd).Pairwise
      (fun a b => a ≠ b) :=
  (instance_names_unique "gpu" 1 all_exhausted_resp [sample_quota_zone, sample_quota_zone_eu]
    (by decide)).2

/-! ### C4 support lemmas -/

lemma create_events_shape (base : String) (target : Nat) (resp : String → List OpResult) :
    ∀ (zones : List QuotaZone) (created : List InstanceRecord) (e : Event),
      e ∈ (create_instances base target resp created zones).1 →
      ∃ r2 z2 n2, (e = Event.insert r2 z2 n2 ∨ e = Event.created r2 z2 n2) ∧
        r2 ∈ zones.map (fun q => q.region) := by
  intro zones
  induction zones with
  | nil =>
    intro created e he
    simp [create_instances] at he
  | cons q rest ih =>
    intro created e he
    simp only [create_instances] at he
    cases hc : create_single_instance (mk_instance_name base (created.length + 1) q.zone)
        q.zone (resp q.zone) with
    | none =>
      simp only [hc] at he
      rcases List.mem_singleton.mp he with rfl
      exact ⟨q.region, q.zone, _, Or.inl rfl, by simp⟩
    | some res =>
      cases res with
      | crash =>
        simp only [hc] at he
        rcases List.mem_singleton.mp he with rfl
        exact ⟨q.region, q.zone, _, Or.inl rfl, by simp⟩
      | exn e0 =>
        simp only [hc] at he
        rcases List.mem_singleton.mp he with rfl
        exact ⟨q.region, q.zone, _, Or.inl rfl, by simp⟩
      | skipped =>
        simp only [hc] at he
        by_cases ht : target ≤ created.length
        · simp only [if_pos ht] at he
          rcases List.mem_singleton.mp he with rfl
          exact ⟨q.region, q.zone, _, Or.inl rfl, by simp⟩
        · simp only [if_neg ht] at he
          rcases List.mem_cons.mp he with rfl | he2
          · exact ⟨q.region, q.zone, _, Or.inl rfl, by simp⟩
          · obtain ⟨r2, z2, n2, hor, hreg⟩ := ih created e he2
            exact ⟨r2, z2, n2, hor, List.mem_cons_of_mem _ hreg⟩
      | created rec =>
        simp only [hc] at he
        by_cases ht : target ≤ created.length + 1
        · simp only [if_pos ht] at he
          rcases List.mem_cons.mp he with rfl | he2
          · exact ⟨q.region, q.zone, _, Or.inl rfl, by simp⟩
          · rcases List.mem_singleton.mp he2 with rfl
            exact ⟨q.region, rec.zone, rec.name, Or.inr rfl, by simp⟩
        · simp only [if_neg ht] at he
          rcases List.mem_cons.mp he with rfl | he2
          · exact ⟨q.region, q.zone, _, Or.inl rfl, by simp⟩
          · rcases List.mem_cons.mp he2 with rfl | he3
            · exact ⟨q.region, rec.zone, rec.name, Or.inr rfl, by simp⟩
            · obtain ⟨r2, z2, n2, hor, hreg⟩ := ih (created ++ [rec]) e he3
              exact ⟨r2, z2, n2, hor, List.mem_cons_of_mem _ hreg⟩

lemma region_mem_eq (l : List QuotaZone) (s rr : String)
    (hall : ∀ q ∈ l, q.region = s) (h : rr ∈ l.map (fun q => q.region)) : rr = s := by
  obtain ⟨q, hq, rfl⟩ := List.mem_map.mp h
  exact hall q hq

lemma insert_event_region_eq (base : String) (target : Nat) (resp : String → List OpResult)
    (zones : List QuotaZone) (created : List InstanceRecord) (s rr zz nn : String)
    (hall : ∀ q ∈ zones, q.region = s)
    (h : Event.insert rr zz nn ∈ (create_instances base target resp created zones).1) :
    rr = s := by
  obtain ⟨r2, z2, n2, hor, hreg⟩ := create_events_shape base target resp zones created _ h
  rcases hor with he | he
  · injection he with h1 h2 h3
    rw [h1]
    exact region_mem_eq zones s r2 hall hreg
  · simp at he

lemma created_event_region_eq (base : String) (target : Nat) (resp : String → List OpResult)
    (zones : List QuotaZone) (created : List InstanceRecord) (s rr zz nn : String)
    (hall : ∀ q ∈ zones, q.region = s)
    (h : Event.created rr zz nn ∈ (create_instances base target resp created zones).1) :
    rr = s := by
  obtain ⟨r2, z2, n2, hor, hreg⟩ := create_events_shape base target resp zones created _ h
  rcases hor with he | he
  · simp at he
  · injection he with h1 h2 h3
    rw [h1]
    exact region_mem_eq zones s r2 hall hreg

lemma delete_events_shape (dresp : String → List OpResult) :
    ∀ (recs : List InstanceRecord) (e : Event),
      e ∈ (delete_instances dresp recs).1 →
      ∃ z2 n2, e = Event.deleteReq z2 n2 ∨ e = Event.deleteDone z2 n2 := by
  intro recs
  induction recs with
  | nil =>
    intro e he
    simp [delete_instances] at he
  | cons rec rest ih =>
    intro e he
    simp only [delete_instances] at he
    cases hd : delete_poll (dresp rec.name) with
    | none =>
      simp only [hd] at he
      rcases List.mem_singleton.mp he with rfl
      exact ⟨rec.zone, rec.name, Or.inl rfl⟩
    | some st =>
      cases st with
      | exn e0 =>
        simp only [hd] at he
        rcases List.mem_singleton.mp he with rfl
        exact ⟨rec.zone, rec.name, Or.inl rfl⟩
      | finished =>
        simp only [hd] at he
        rcases List.mem_cons.mp he with rfl | he2
        · exact ⟨rec.zone, rec.name, Or.inl rfl⟩
        · rcases List.mem_cons.mp he2 with rfl | he3
          · exact ⟨rec.zone, rec.name, Or.inr rfl⟩
          · exact ih e he3

lemma create_instances_result_extends (base : String) (target : Nat)
    (resp : String → List OpResult) :
    ∀ (zones : List QuotaZone) (created recs : List InstanceRecord),
      (create_instances base target resp created zones).2 = StepResult.ok recs →
      ∃ s, recs = created ++ s := by
  intro zones
  induction zones with
  | nil =>
    intro created recs h
    injection h with h
    subst h
    exact ⟨[], by simp⟩
  | cons q rest ih =>
    intro created recs h
    simp only [create_instances] at h
    cases hc : create_single_instance (mk_instance_name base (created.length + 1) q.zone)
        q.zone (resp q.zone) with
    | none => simp [hc] at h
    | some res =>
      cases res with
      | crash => simp [hc] at h
      | exn e0 => simp [hc] at h
      | skipped =>
        simp only [hc] at h
        by_cases ht : target ≤ created.length
        · simp only [if_pos ht] at h
          injection h with h
          subst h
          exact ⟨[], by simp⟩
        · simp only [if_neg ht] at h
          exact ih created recs h
      | created rec =>
        simp only [hc] at h
        by_cases ht : target ≤ created.length + 1
        · simp only [if_pos ht] at h
          injection h with h
          subst h
          exact ⟨[rec], rfl⟩
        · simp only [if_neg ht] at h
          obtain ⟨s, hs⟩ := ih (created ++ [rec]) recs h
          exact ⟨rec :: s, by rw [hs]; simp⟩

lemma created_event_in_result (base : String) (target : Nat)
    (resp : String → List OpResult) :
    ∀ (zones : List QuotaZone) (created recs : List InstanceRecord) (r2 z2 n2 : String),
      (create_instances base target resp created zones).2 = StepResult.ok recs →
      Event.created r2 z2 n2 ∈ (create_instances base target resp created zones).1 →
      ({ name := n2, zone := z2 } : InstanceRecord) ∈ recs := by
  intro zones
  induction zones with
  | nil =>
    intro created recs r2 z2 n2 h he
    simp [create_instances] at he
  | cons q rest ih =>
    intro created recs r2 z2 n2 h he
    simp only [create_instances] at h he
    cases hc : create_single_instance (mk_instance_name base (created.length + 1) q.zone)
        q.zone (resp q.zone) with
    | none => simp [hc] at h
    | some res =>
      cases res with
      | crash => simp [hc] at h
      | exn e0 => simp [hc] at h
      | skipped =>
        simp only [hc] at h he
        by_cases ht : target ≤ created.length
        · simp only [if_pos ht] at h he
          have he3 := List.mem_singleton.mp he
          simp at he3
        · simp only [if_neg ht] at h he
          rcases List.mem_cons.mp he with he3 | he2
          · simp at he3
          · exact ih created recs r2 z2 n2 h he2
      | created rec =>
        simp only [hc] at h he
        by_cases ht : target ≤ created.length + 1
        · simp only [if_pos ht] at h he
          injection h with h
          subst h
          rcases List.mem_cons.mp he with he3 | he2
          · simp at he3
          · have he3 := List.mem_singleton.mp he2
            injection he3 with h1 h2 h3
            subst h2
            subst h3
            simp
        · simp only [if_neg ht] at h he
          rcases List.mem_cons.mp he with he3 | he2
          · simp at he3
          · rcases List.mem_cons.mp he2 with he3 | he4
            · injection he3 with h1 h2 h3
              subst h2
              subst h3
              obtain ⟨s, hs⟩ := create_instances_result_extends base target resp rest
                (created ++ [rec]) recs h
              rw [hs]
              simp
            · exact ih (created ++ [rec]) recs r2 z2 n2 h he4

lemma delete_done_all (dresp : String → List OpResult) :
    ∀ (recs : List InstanceRecord),
      (delete_instances dresp recs).2 = StepResult.ok () →
      ∀ rec ∈ recs, Event.deleteDone rec.zone rec.name ∈ (delete_instances dresp recs).1 := by
  intro recs
  induction recs with
  | nil =>
    intro h rec hrec
    cases hrec
  | cons rec0 rest ih =>
    intro h rec hrec
    simp only [delete_instances] at h ⊢
    cases hd : delete_poll (dresp rec0.name) with
    | none => simp [hd] at h
    | some st =>
      cases st with
      | exn e0 => simp [hd] at h
      | finished =>
        simp only [hd] at h ⊢
        rcases List.mem_cons.mp hrec with rfl | hrec2
        · simp
        · have := ih h rec hrec2
          simp only [List.mem_cons]
          exact Or.inr (Or.inr this)

lemma add_to_groups_region (q : QuotaZone) :
    ∀ (groups : List (String × List QuotaZone)),
      (∀ g ∈ groups, ∀ z ∈ g.2, z.region = g.1) →
      ∀ g ∈ add_to_groups groups q, ∀ z ∈ g.2, z.region = g.1 := by
  intro groups
  induction groups with
  | nil =>
    intro hall g hg z hz
    simp only [add_to_groups] at hg
    rcases List.mem_singleton.mp hg with rfl
    rcases List.mem_singleton.mp hz with rfl
    rfl
  | cons g0 rest ih =>
    intro hall g hg z hz
    simp only [add_to_groups] at hg
    by_cases hr : g0.1 = q.region
    · rw [if_pos hr] at hg
      rcases List.mem_cons.mp hg with rfl | hg2
      · rcases List.mem_append.mp hz with hz1 | hz2
        · exact hall g0 (List.mem_cons_self g0 rest) z hz1
        · rcases List.mem_singleton.mp hz2 with rfl
          exact hr.symm
      · exact hall g (List.mem_cons_of_mem g0 hg2) z hz
    · rw [if_neg hr] at hg
      rcases List.mem_cons.mp hg with rfl | hg2
      · exact hall g (List.mem_cons_self g rest) z hz
      · exact ih (fun g2 hg2b => hall g2 (List.mem_cons_of_mem g0 hg2b)) g hg2 z hz

lemma group_by_region_region :
    ∀ (l : List QuotaZone) (groups : List (String × List QuotaZone)),
      (∀ g ∈ groups, ∀ z ∈ g.2, z.region = g.1) →
      ∀ g ∈ l.foldl add_to_groups groups, ∀ z ∈ g.2, z.region = g.1 := by
  intro l
  induction l with
  | nil => intro groups hall; simpa using hall
  | cons q rest ih =>
    intro groups hall
    simp only [List.foldl_cons]
    exact ih (add_to_groups groups q) (add_to_groups_region q groups hall)

lemma append_eq_middle_cases {α : Type} :
    ∀ (l1 t1 l2 t2 : List α) (x : α),
      l1 ++ l2 = t1 ++ x :: t2 →
      (∃ u, l1 = t1 ++ x :: u ∧ t2 = u ++ l2) ∨ (∃ v, t1 = l1 ++ v ∧ l2 = v ++ x :: t2) := by
  intro l1
  induction l1 with
  | nil =>
    intro t1 l2 t2 x h
    right
    exact ⟨t1, by simp, by simpa using h⟩
  | cons a l1t ih =>
    intro t1 l2 t2 x h
    cases t1 with
    | nil =>
      simp only [List.nil_append] at h
      injection h with h1 h2
      subst h1
      left
      exact ⟨l1t, by simp, h2.symm⟩
    | cons b t1t =>
      simp only [List.cons_append] at h
      injection h with h1 h2
      subst h1
      rcases ih t1t l2 t2 x h2 with ⟨u, hu1, hu2⟩ | ⟨v, hv1, hv2⟩
      · left
        exact ⟨u, by rw [List.cons_append, hu1], hu2⟩
      · right
        exact ⟨v, by rw [List.cons_append, hv1], hv2⟩

lemma machine_zones_scan_events (machine_type gpu_type : String)
    (pages : String → List (List MachineEntry)) :
    ∀ (zones : List ZoneInfo) (e : Event),
      e ∈ (machine_zones_scan machine_type gpu_type pages zones).1 →
      ∃ zz, e = Event.machineTypeList zz := by
  intro zones
  induction zones with
  | nil =>
    intro e he
    simp [machine_zones_scan] at he
  | cons z rest ih =>
    intro e he
    simp only [machine_zones_scan] at he
    cases hp : machine_pages_scan machine_type gpu_type z (pages z.zone) with
    | error e0 =>
      simp only [hp] at he
      rcases List.mem_singleton.mp he with rfl
      exact ⟨z.zone, rfl⟩
    | ok found =>
      simp only [hp] at he
      rcases List.mem_cons.mp he with rfl | he2
      · exact ⟨z.zone, rfl⟩
      · exact ih e he2

lemma accel_zones_scan_events (gpu_type : String) (requested : Nat)
    (pages : String → List (Option (List AcceleratorType))) :
    ∀ (zones : List CapableZone) (e : Event),
      e ∈ (accel_zones_scan gpu_type requested pages zones).1 →
      ∃ zz, e = Event.acceleratorList zz := by
  intro zones
  induction zones with
  | nil =>
    intro e he
    simp [accel_zones_scan] at he
  | cons z rest ih =>
    intro e he
    simp only [accel_zones_scan] at he
    rcases List.mem_cons.mp he with rfl | he2
    · exact ⟨z.zone, rfl⟩
    · exact ih e he2

lemma run_regions_cleanup (base : String) (target : Nat) (cresp dresp : String → List OpResult) :
    ∀ (groups : List (String × List QuotaZone)),
      (∀ g ∈ groups, ∀ q ∈ g.2, q.region = g.1) →
      ∀ (t1 t2 t3 : List Event) (r z n rr zz nn : String),
        (run_regions base target cresp dresp groups).1 =
          t1 ++ Event.created r z n :: (t2 ++ Event.insert rr zz nn :: t3) →
        rr ≠ r →
        Event.deleteDone z n ∈ t2 := by
  intro groups
  induction groups with
  | nil =>
    intro hg t1 t2 t3 r z n rr zz nn h hne
    have hlen := congrArg List.length h
    simp [run_regions, List.length_append] at hlen
    omega
  | cons g rest ih =>
    intro hg t1 t2 t3 r z n rr zz nn h hne
    have hgq : ∀ q ∈ g.2, q.region = g.1 := hg g (List.mem_cons_self g rest)
    have hgrest : ∀ g2 ∈ rest, ∀ q ∈ g2.2, q.region = g2.1 :=
      fun g2 hg2 => hg g2 (List.mem_cons_of_mem g hg2)
    simp only [run_regions] at h
    cases hcre : (create_instances base target cresp [] g.2).2 with
    | hung =>
      simp only [hcre] at h
      have hins : Event.insert rr zz nn ∈ (create_instances base target cresp [] g.2).1 := by
        rw [h]; simp
      have hcrd : Event.created r z n ∈ (create_instances base target cresp [] g.2).1 := by
        rw [h]; simp
      have h1 := insert_event_region_eq base target cresp g.2 [] g.1 rr zz nn hgq hins
      have h2 := created_event_region_eq base target cresp g.2 [] g.1 r z n hgq hcrd
      exact absurd (h1.trans h2.symm) hne
    | raised e0 =>
      simp only [hcre] at h
      have hins : Event.insert rr zz nn ∈ (create_instances base target cresp [] g.2).1 := by
        rw [h]; simp
      have hcrd : Event.created r z n ∈ (create_instances base target cresp [] g.2).1 := by
        rw [h]; simp
      have h1 := insert_event_region_eq base target cresp g.2 [] g.1 rr zz nn hgq hins
      have h2 := created_event_region_eq base target cresp g.2 [] g.1 r z n hgq hcrd
      exact absurd (h1.trans h2.symm) hne
    | ok details =>
      simp only [hcre] at h
      by_cases hde : details.isEmpty
      · simp only [if_pos hde] at h
        rcases append_eq_middle_cases _ t1 _ (t2 ++ Event.insert rr zz nn :: t3)
          (Event.created r z n) h with ⟨u, hu1, hu2⟩ | ⟨v, hv1, hv2⟩
        · have hmem : Event.created r z n ∈ (create_instances base target cresp [] g.2).1 := by
            rw [hu1]; simp
          have hrec := created_event_in_result base target cresp g.2 [] details r z n hcre hmem
          have hdetails : details = [] := by simpa using hde
          rw [hdetails] at hrec
          cases hrec
        · exact ih hgrest v t2 t3 r z n rr zz nn hv2 hne
      · simp only [if_neg hde] at h
        cases hdel : (delete_instances dresp details).2 with
        | hung =>
          simp only [hdel] at h
          have hins : Event.insert rr zz nn ∈
              (create_instances base target cresp [] g.2).1 ++
                (delete_instances dresp details).1 := by
            rw [h]; simp
          have hcrd : Event.created r z n ∈
              (create_instances base target cresp [] g.2).1 ++
                (delete_instances dresp details).1 := by
            rw [h]; simp
          rcases List.mem_append.mp hins with hi | hi
          · rcases List.mem_append.mp hcrd with hc2 | hc2
            · have h1 := insert_event_region_eq base target cresp g.2 [] g.1 rr zz nn hgq hi
              have h2 := created_event_region_eq base target cresp g.2 [] g.1 r z n hgq hc2
              exact absurd (h1.trans h2.symm) hne
            · obtain ⟨z2, n2, hor⟩ := delete_events_shape dresp details _ hc2
              rcases hor with he | he <;> simp at he
          · obtain ⟨z2, n2, hor⟩ := delete_events_shape dresp details _ hi
            rcases hor with he | he <;> simp at he
        | raised e1 =>
          simp only [hdel] at h
          have hins : Event.insert rr zz nn ∈
              (create_instances base target cresp [] g.2).1 ++
                (delete_instances dresp details).1 := by
            rw [h]; simp
          have hcrd : Event.created r z n ∈
              (create_instances base target cresp [] g.2).1 ++
                (delete_instances dresp details).1 := by
            rw [h]; simp
          rcases List.mem_append.mp hins with hi | hi
          · rcases List.mem_append.mp hcrd with hc2 | hc2
            · have h1 := insert_event_region_eq base target cresp g.2 [] g.1 rr zz nn hgq hi
              have h2 := created_event_region_eq base target cresp g.2 [] g.1 r z n hgq hc2
              exact absurd (h1.trans h2.symm) hne
            · obtain ⟨z2, n2, hor⟩ := delete_events_shape dresp details _ hc2
              rcases hor with he | he <;> simp at he
          · obtain ⟨z2, n2, hor⟩ := delete_events_shape dresp details _ hi
            rcases hor with he | he <;> simp at he
        | ok u0 =>
          simp only [hdel] at h
          rw [List.append_assoc] at h
          rcases append_eq_middle_cases _ t1 _ (t2 ++ Event.insert rr zz nn :: t3)
            (Event.created r z n) h with ⟨u, hu1, hu2⟩ | ⟨v, hv1, hv2⟩
          · have hmem : Event.created r z n ∈ (create_instances base target cresp [] g.2).1 := by
              rw [hu1]; simp
            have hr2 := created_event_region_eq base target cresp g.2 [] g.1 r z n hgq hmem
            have hrec := created_event_in_result base target cresp g.2 [] details r z n hcre hmem
            have hdd := delete_done_all dresp details hdel
              ({ name := n, zone := z } : InstanceRecord) hrec
            have hu2b : (u ++ (delete_instances dresp details).1) ++
                (run_regions base target cresp dresp rest).1 =
                t2 ++ Event.insert rr zz nn :: t3 := by
              rw [List.append_assoc]
              exact hu2.symm
            rcases append_eq_middle_cases _ t2 _ t3 (Event.insert rr zz nn) hu2b with
              ⟨w, hw1, hw2⟩ | ⟨w, hw1, hw2⟩
            · have hins2 : Event.insert rr zz nn ∈
                  u ++ (delete_instances dresp details).1 := by
                rw [hw1]; simp
              rcases List.mem_append.mp hins2 with hi | hi
              · have hin3 : Event.insert rr zz nn ∈
                    (create_instances base target cresp [] g.2).1 := by
                  rw [hu1]
                  simp only [List.mem_append, List.mem_cons]
                  right; right; exact hi
                have hr1 := insert_event_region_eq base target cresp g.2 [] g.1 rr zz nn hgq hin3
                exact absurd (hr1.trans hr2.symm) hne
              · obtain ⟨z2, n2, hor⟩ := delete_events_shape dresp details _ hi
                rcases hor with he | he <;> simp at he
            · rw [hw1]
              exact List.mem_append.mpr (Or.inl (List.mem_append.mpr (Or.inr hdd)))
          · rcases append_eq_middle_cases _ v _ (t2 ++ Event.insert rr zz nn :: t3)
              (Event.created r z n) hv2 with ⟨u2, hu21, hu22⟩ | ⟨w, hw1, hw2⟩
            · have hmem : Event.created r z n ∈ (delete_instances dresp details).1 := by
                rw [hu21]; simp
              obtain ⟨z2, n2, hor⟩ := delete_events_shape dresp details _ hmem
              rcases hor with he | he <;> simp at he
            · exact ih hgrest w t2 t3 r z n rr zz nn hw2 hne

lemma gpu_finder_main_split (cfg : Config) (zone_pages : List (List ZoneItem))
    (machine_pages : String → List (List MachineEntry))
    (accel_pages : String → List (Option (List AcceleratorType)))
    (cresp dresp : String → List OpResult) :
    ∃ (pre : List Event) (groups : List (String × List QuotaZone)),
      (∀ g ∈ groups, ∀ q ∈ g.2, q.region = g.1) ∧
      (gpu_finder_main cfg zone_pages machine_pages accel_pages cresp dresp).1 =
        pre ++ (run_regions cfg.name cfg.number_of_instances cresp dresp groups).1 ∧
      ∀ e ∈ pre, (∀ a b c, e ≠ Event.created a b c) ∧ (∀ a b c, e ≠ Event.insert a b c) := by
  simp only [gpu_finder_main]
  split
  · -- config error branch
    refine ⟨[Event.zoneList], [], by simp, by simp [run_regions], ?_⟩
    intro e2 he2
    have he3 := List.mem_singleton.mp he2
    subst he3
    exact ⟨fun a b c h => Event.noConfusion h, fun a b c h => Event.noConfusion h⟩
  · split
    · -- machine stage error
      rename_i u m e hm
      refine ⟨Event.zoneList ::
        (check_machine_type_and_accelerator cfg.machine_type cfg.gpu_type machine_pages
          (if cfg.zone_allowlist.isEmpty then get_zone_info zone_pages
           else (get_zone_info zone_pages).filter fun z => cfg.zone_allowlist.contains z.zone)).1,
        [], by simp, by simp [run_regions], ?_⟩
      intro e2 he2
      rcases List.mem_cons.mp he2 with rfl | he3
      · exact ⟨fun a b c h => Event.noConfusion h, fun a b c h => Event.noConfusion h⟩
      · obtain ⟨zz2, hzz⟩ := machine_zones_scan_events cfg.machine_type cfg.gpu_type
          machine_pages _ e2 he3
        subst hzz
        exact ⟨fun a b c h => Event.noConfusion h, fun a b c h => Event.noConfusion h⟩
    · -- machine stage ok
      rename_i u m available hm
      split
      · -- accel stage error
        rename_i a e ha
        refine ⟨Event.zoneList ::
          (check_machine_type_and_accelerator cfg.machine_type cfg.gpu_type machine_pages
            (if cfg.zone_allowlist.isEmpty then get_zone_info zone_pages
             else (get_zone_info zone_pages).filter fun z => cfg.zone_allowlist.contains z.zone)).1 ++
          (get_accelerator_quota cfg.gpu_type cfg.number_of_gpus accel_pages available).1,
          [], by simp, by simp [run_regions], ?_⟩
        intro e2 he2
        rcases List.mem_append.mp he2 with he3 | he4
        · rcases List.mem_cons.mp he3 with rfl | he5
          · exact ⟨fun a2 b c h => Event.noConfusion h, fun a2 b c h => Event.noConfusion h⟩
          · obtain ⟨zz2, hzz⟩ := machine_zones_scan_events cfg.machine_type cfg.gpu_type
              machine_pages _ e2 he5
            subst hzz
            exact ⟨fun a2 b c h => Event.noConfusion h, fun a2 b c h => Event.noConfusion h⟩
        · obtain ⟨zz2, hzz⟩ := accel_zones_scan_events cfg.gpu_type cfg.number_of_gpus
            accel_pages available e2 he4
          subst hzz
          exact ⟨fun a2 b c h => Event.noConfusion h, fun a2 b c h => Event.noConfusion h⟩
      · -- accel stage ok: the run itself
        rename_i a quota ha
        refine ⟨Event.zoneList ::
          (check_machine_type_and_accelerator cfg.machine_type cfg.gpu_type machine_pages
            (if cfg.zone_allowlist.isEmpty then get_zone_info zone_pages
             else (get_zone_info zone_pages).filter fun z => cfg.zone_allowlist.contains z.zone)).1 ++
          (get_accelerator_quota cfg.gpu_type cfg.number_of_gpus accel_pages available).1,
          group_by_region quota, ?_, by simp, ?_⟩
        · intro g hg q hq
          exact group_by_region_region quota [] (by simp) g hg q hq
        · intro e2 he2
          rcases List.mem_append.mp he2 with he3 | he4
          · rcases List.mem_cons.mp he3 with rfl | he5
            · exact ⟨fun a2 b c h => Event.noConfusion h, fun a2 b c h => Event.noConfusion h⟩
            · obtain ⟨zz2, hzz⟩ := machine_zones_scan_events cfg.machine_type cfg.gpu_type
                machine_pages _ e2 he5
              subst hzz
              exact ⟨fun a2 b c h => Event.noConfusion h, fun a2 b c h => Event.noConfusion h⟩
          · obtain ⟨zz2, hzz⟩ := accel_zones_scan_events cfg.gpu_type cfg.number_of_gpus
              accel_pages available e2 he4
            subst hzz
            exact ⟨fun a2 b c h => Event.noConfusion h, fun a2 b c h => Event.noConfusion h⟩

/-- C4: whenever a run of main records a successful instance creation and
later submits an insert in a different region, a completed deletion of that
instance lies strictly between the two events: every instance created in a
region is deleted, with its delete operation polled to completion, before
provisioning for the next region begins. -/
theorem region_cleanup_before_next_region (cfg : Config)
    (zone_pages : List (List ZoneItem))
    (machine_pages : String → List (List MachineEntry))
    (accel_pages : String → List (Option (List AcceleratorType)))
    (cresp dresp : String → List OpResult)
    (t1 t2 t3 : List Event) (r z n rr zz nn : String)
    (h : (gpu_finder_main cfg zone_pages machine_pages accel_pages cresp dresp).1 =
      t1 ++ Event.created r z n :: (t2 ++ Event.insert rr zz nn :: t3))
    (hne : rr ≠ r) :
    Event.deleteDone z n ∈ t2 := by
  obtain ⟨pre, groups, hgroups, htrace, hpre⟩ :=
    gpu_finder_main_split cfg zone_pages machine_pages accel_pages cresp dresp
  rw [htrace] at h
  rcases append_eq_middle_cases _ t1 _ (t2 ++ Event.insert rr zz nn :: t3)
    (Event.created r z n) h with ⟨u, hu1, hu2⟩ | ⟨v, hv1, hv2⟩
  · have hmem : Event.created r z n ∈ pre := by rw [hu1]; simp
    exact absurd rfl ((hpre _ hmem).1 r z n)
  · exact run_regions_cleanup cfg.name cfg.number_of_instances cresp dresp groups hgroups
      v t2 t3 r z n rr zz nn hv2 hne

theorem region_cleanup_before_next_region_witness :
    Event.deleteDone "us-central1-a" "gpu-1-us-central1-a" ∈
      [Event.deleteReq "us-central1-a" "gpu-1-us-central1-a",
       Event.deleteDone "us-central1-a" "gpu-1-us-central1-a"] :=
  region_cleanup_before_next_region tworegion_cfg tworegion_zone_pages
    tworegion_machine_pages tworegion_accel_pages all_success_resp all_success_resp
    [Event.zoneList, Event.machineTypeList "us-central1-a",
     Event.machineTypeList "europe-west4-a", Event.acceleratorList "us-central1-a",
     Event.acceleratorList "europe-west4-a",
     Event.insert "us-central1" "us-central1-a" "gpu-1-us-central1-a"]
    [Event.deleteReq "us-central1-a" "gpu-1-us-central1-a",
     Event.deleteDone "us-central1-a" "gpu-1-us-central1-a"]
    [Event.created "europe-west4" "europe-west4-a" "gpu-1-europe-west4-a",
     Event.deleteReq "europe-west4-a" "gpu-1-europe-west4-a",
     Event.deleteDone "europe-west4-a" "gpu-1-europe-west4-a"]
    "us-central1" "us-central1-a" "gpu-1-us-central1-a"
    "europe-west4" "europe-west4-a" "gpu-1-europe-west4-a"
    (by decide) (by decide)
